import Mathlib

/-!
Verification of the line-food-bot AI orchestration core.

This file shallowly embeds the relevant JavaScript modules of the repository
(`src/lib/gemini.js`, `src/lib/flexBuilder.js`, `src/lib/schedule.js`,
`src/lib/constants.js`) as executable Lean definitions and proves the frozen
claims about them.  JavaScript strings are modelled through their character
lists (`String.data`); machine numbers that stay small non-negative integers
are modelled as `Nat`.  Host-platform builtins that the repository merely
calls (the WHATWG `URL` parser, `encodeURIComponent`, `Math.round`) are
modelled from their documented behaviour and noted as such at their
definitions.
-/

/-! ## JavaScript string helpers -/

/-- Characters treated as whitespace by the JavaScript `\s` class and
`String.prototype.trim` (the common members actually reachable in this
code base: ASCII blanks, NBSP and the ideographic space). -/
def isJsWs (c : Char) : Bool :=
  c == ' ' || c == '\t' || c == '\n' || c == '\r' ||
  c == Char.ofNat 0x0b || c == Char.ofNat 0x0c ||
  c == Char.ofNat 0xa0 || c == Char.ofNat 0x3000

/-- Drop leading JavaScript whitespace (the `\s*` regex idiom). -/
def dropWs (s : List Char) : List Char := s.dropWhile isJsWs

/-- Trim JavaScript whitespace from both ends of a character list. -/
def jsTrimL (l : List Char) : List Char :=
  ((l.dropWhile isJsWs).reverse.dropWhile isJsWs).reverse

/-- Embeds `String.prototype.trim`. -/
def jsTrimS (s : String) : String := String.mk (jsTrimL s.data)

/-- Greedily take at least one character satisfying `p` (the `X+` regex
idiom); fails when no character matches. -/
def takeWhile1 (p : Char → Bool) (s : List Char) : Option (List Char × List Char) :=
  let t := s.takeWhile p
  if t.isEmpty then none else some (t, s.drop t.length)

/-- Consume the literal `lit` from the front of `s`, returning the rest. -/
def dropLit : List Char → List Char → Option (List Char)
  | [], s => some s
  | _ :: _, [] => none
  | l :: ls, c :: cs => if c == l then dropLit ls cs else none

/-- Case-insensitive variant of `dropLit` (for the regex `i` flag). -/
def dropLitCI : List Char → List Char → Option (List Char)
  | [], s => some s
  | _ :: _, [] => none
  | l :: ls, c :: cs => if c.toLower == l.toLower then dropLitCI ls cs else none

/-- Whether `needle` is a prefix of `hay`. -/
def isPrefixList (needle hay : List Char) : Bool := (dropLit needle hay).isSome

/-- First index at which `needle` occurs in `hay`, offset by `i`. -/
def indexOfSubGo (needle : List Char) (hay : List Char) (i : Nat) : Option Nat :=
  match hay with
  | [] => if needle.isEmpty then some i else none
  | _ :: rest =>
    if isPrefixList needle hay then some i else indexOfSubGo needle rest (i + 1)

/-- Embeds `String.prototype.indexOf` (first occurrence index). -/
def indexOfSub (needle hay : List Char) : Option Nat := indexOfSubGo needle hay 0

/-- Embeds `String.prototype.includes`. -/
def jsIncludes (s : String) (k : String) : Bool := (indexOfSub k.data s.data).isSome

/-- Embeds `String.prototype.startsWith`. -/
def jsStartsWith (s pre : String) : Bool := isPrefixList pre.data s.data

/-- Embeds `String.prototype.slice(0, n)` (also `take` on strings). -/
def jsSlice (s : String) (n : Nat) : String := String.mk (s.data.take n)

/-- Embeds `String.prototype.split` with a single-character separator:
`split` never returns an empty list (splitting the empty string yields
one empty field), matching JavaScript. -/
def splitOnCharL (sep : Char) : List Char → List (List Char)
  | [] => [[]]
  | c :: rest =>
    if c == sep then [] :: splitOnCharL sep rest
    else
      match splitOnCharL sep rest with
      | [] => [[c]]
      | p :: ps => (c :: p) :: ps

/-- Embeds `parseInt(str, 10)` for the all-digit strings produced by this
code base: the empty string is `NaN` (`none`), otherwise the decimal value. -/
def jsParseIntDigits (l : List Char) : Option Nat :=
  if l.isEmpty then none else some (l.foldl (fun a c => a * 10 + (c.toNat - 48)) 0)

/-- Embeds the JavaScript string-coalescing idiom `x || d`: `null`,
`undefined` and the empty string all select the default. -/
def jsOrS (o : Option String) (d : String) : String :=
  match o with
  | some s => if s = "" then d else s
  | none => d

/-- Try a matcher at every position of the input, returning the leftmost
match (regex scanning without anchors). -/
def scanFirst {α : Type} (f : List Char → Option α) : List Char → Option α
  | [] => f []
  | c :: rest =>
    match f (c :: rest) with
    | some r => some r
    | none => scanFirst f rest

/-! ## Constants (`src/lib/constants.js`) -/

/-- Daily free-quota cap of the primary flash model. -/
def FLASH_LIMIT : Nat := 250

/-- Count at which the primary provider downgrades to the lite tier. -/
def FLASH_THRESHOLD : Nat := 240

/-- Maximum number of retained conversation turns (three exchanges). -/
def MAX_HISTORY_LENGTH : Nat := 6

/-- Conversation-memory time-to-live in milliseconds. -/
def HISTORY_TTL_MS : Nat := 30 * 60 * 1000

/-- Schedule sources untouched for this long are purged at save time. -/
def SCHEDULE_CLEANUP : Nat := 365 * 24 * 60 * 60 * 1000

/-! ## Flex builder (`src/lib/flexBuilder.js`) -/

/-- One restaurant record as produced by `JSON.parse` on the fenced block;
fields may be absent (`none`) exactly as in the loosely-typed JSON. -/
structure Restaurant where
  name : Option String
  rating : Option String
  price : Option String
  item : Option String
  mapUrl : Option String
deriving DecidableEq, Repr

/-- Uppercase hexadecimal digit, as used by `encodeURIComponent`. -/
def hexDigitChar (n : Nat) : Char :=
  if n < 10 then Char.ofNat (48 + n) else Char.ofNat (55 + n)

/-- Percent-encode one byte. -/
def percentByte (b : UInt8) : List Char :=
  ['%', hexDigitChar (b.toNat / 16), hexDigitChar (b.toNat % 16)]

/-- Characters `encodeURIComponent` leaves unescaped. -/
def isUriUnreserved (c : Char) : Bool :=
  c.isAlpha || c.isDigit || c == '-' || c == '_' || c == '.' ||
  c == '!' || c == '~' || c == '*' || c == Char.ofNat 39 ||
  c == '(' || c == ')'

/-- Models the host builtin `encodeURIComponent`: unreserved characters are
kept, every other character is percent-encoded per UTF-8 byte. -/
def encodeURIComponent (s : String) : String :=
  String.mk (s.data.foldr
    (fun c acc =>
      (if isUriUnreserved c then [c]
       else (String.utf8EncodeChar c).foldr (fun b a2 => percentByte b ++ a2) []) ++ acc)
    [])

/-- The constructed Google-Maps search URL used as the fallback button link. -/
def googleMapsSearchUrl (name : String) : String :=
  "https://www.google.com/maps/search/?api=1&query=" ++ encodeURIComponent name

/-- Scheme characters allowed after the leading letter of a URL scheme. -/
def isSchemeRestChar (c : Char) : Bool :=
  c.isAlpha || c.isDigit || c == '+' || c == '-' || c == '.'

/-- Schemes the WHATWG parser treats as special and requires a host for
(`file` also is special but allows an empty host). -/
def isSpecialScheme (scheme : String) : Bool :=
  scheme == "http" || scheme == "https" || scheme == "ws" ||
  scheme == "wss" || scheme == "ftp"

/-- Models the host platform WHATWG parser call `new URL(s).href`: a string
parses when it carries a syntactically valid scheme (`ALPHA *(ALPHA / DIGIT
/ plus / minus / dot)` followed by a colon), except that a special scheme
followed by nothing but slashes has no host and fails (so `http://` throws,
as the real parser does).  The returned `href` lowercases the scheme (so an
uppercase `HTTPS://...` still passes the later protocol check, as the real
builtin's `href` does); the percent-encoding, host-case and path
normalization the real parser additionally performs are elided — the
already-normalized URLs this code feeds through are returned unchanged. -/
def jsUrlHref (s : String) : Option String :=
  match s.data with
  | [] => none
  | c :: rest =>
    if c.isAlpha then
      let body := rest.takeWhile isSchemeRestChar
      match rest.drop body.length with
      | ':' :: after =>
        let scheme := (c :: body).map Char.toLower
        if isSpecialScheme (String.mk scheme) &&
            (after.dropWhile (fun ch => ch == '/')).isEmpty then none
        else some (String.mk (scheme ++ ':' :: after))
      | _ => none
    else none

/-- Truncation to the platform card link-length limit, the final step of the
URL sanitization (`if (safeMapUrl.length > 1000) safeMapUrl.slice(0, 1000)`). -/
def truncate1000 (s : String) : String :=
  if 1000 < s.data.length then jsSlice s 1000 else s

/-- Embeds the URL sanitization of `buildRestaurantCarousel`
(`src/lib/flexBuilder.js` lines 13-29): try `new URL(mapUrl).href`, reject a
non-http(s) protocol, fall back to a constructed search URL on any failure,
then truncate whatever resulted to 1000 characters. -/
def safeMapUrlOf (r : Restaurant) : String :=
  let raw := jsOrS r.mapUrl ""
  let afterTry :=
    match jsUrlHref raw with
    | some href =>
      if jsStartsWith href "http://" || jsStartsWith href "https://" then href
      else googleMapsSearchUrl (jsOrS r.name "餐廳")
    | none => googleMapsSearchUrl (jsOrS r.name "餐廳")
  truncate1000 afterTry

/-- The observable content of one rendered carousel bubble: the four body
texts and the footer button URL. -/
structure FlexBubble where
  nameText : String
  ratingText : String
  priceText : String
  itemText : String
  uri : String
deriving DecidableEq, Repr

/-- Builds one bubble from one record, with the defensive defaults of the
source (`未知名稱` for the name, `無` for the other fields). -/
def mkBubble (r : Restaurant) : FlexBubble :=
  { nameText := jsOrS r.name "未知名稱"
    ratingText := "⭐ " ++ jsOrS r.rating "無"
    priceText := "💰 " ++ jsOrS r.price "無"
    itemText := "🍜 " ++ jsOrS r.item "無"
    uri := safeMapUrlOf r }

/-- Embeds `buildRestaurantCarousel`: at most the first ten records become
bubbles (`restaurants.slice(0, 10).map(...)`). -/
def buildRestaurantCarousel (restaurants : List Restaurant) : List FlexBubble :=
  (restaurants.take 10).map mkBubble

/-- One outgoing message of the reconciled reply. -/
inductive FlexMsg where
  | text (t : String)
  | flex (altText : String) (bubbles : List FlexBubble)
deriving DecidableEq, Repr

/-- The fixed alt text of the carousel message. -/
def FLEX_ALT : String := "史都華 (Stuart) 為你找了幾家好吃的 Banana! (請在手機看)"

/-- Embeds `tryParseFlexResponse` after its fenced block has been located and
`JSON.parse` has produced `restaurants`; `introText` is the reply text
outside the block, trimmed.  (The fence-matching regex and `JSON.parse`
itself are upstream of every claim about this function, whose premises
quantify over the parsed array directly.) -/
def tryParseFlexMessages (introText : String) (restaurants : List Restaurant) :
    Option (List FlexMsg) :=
  let msgs1 := if introText = "" then [] else [FlexMsg.text introText]
  let bubbles := buildRestaurantCarousel restaurants
  let msgs := msgs1 ++ (if bubbles.isEmpty then [] else [FlexMsg.flex FLEX_ALT bubbles])
  if msgs.isEmpty then none else some msgs

/-! ## Provider gateway and orchestrator (`src/lib/gemini.js`) -/

/-- One retained conversation turn; `role` is the literal `user` / `model`
string of the source. -/
structure Turn where
  role : String
  content : String
deriving DecidableEq, Repr

/-- One `chatHistoryCache` entry. -/
structure CacheEntry where
  history : List Turn
  lastUpdated : Nat
deriving DecidableEq, Repr

/-- The in-memory API usage tracker (`apiUsageTracker`). -/
structure Tracker where
  date : String
  flashCount : Nat
deriving DecidableEq, Repr

/-- The module-level mutable state of `gemini.js`: the conversation-history
map and the usage tracker.  The `Map` is modelled as an association list in
insertion order with unique keys. -/
structure GState where
  cache : List (String × CacheEntry)
  tracker : Tracker
deriving DecidableEq, Repr

/-- `Map.prototype.get`. -/
def mapGet (m : List (String × CacheEntry)) (k : String) : Option CacheEntry :=
  (m.find? (fun p => p.1 == k)).map (fun p => p.2)

/-- `Map.prototype.set`: replace in place when the key exists, else append. -/
def mapSet (m : List (String × CacheEntry)) (k : String) (v : CacheEntry) :
    List (String × CacheEntry) :=
  if (m.find? (fun p => p.1 == k)).isSome then
    m.map (fun p => if p.1 == k then (k, v) else p)
  else m ++ [(k, v)]

/-- `Map.prototype.delete`. -/
def mapDelete (m : List (String × CacheEntry)) (k : String) :
    List (String × CacheEntry) :=
  m.filter (fun p => !(p.1 == k))

/-- Outcome of one primary-provider (Gemini) call: the call either throws or
yields a text (possibly empty). -/
inductive PrimaryOutcome where
  | ok (text : String)
  | err
deriving DecidableEq, Repr

/-- Outcome of one secondary-provider (OpenRouter) model attempt: a non-2xx
HTTP response with its status and error body, a 2xx response whose parsed
`choices[0].message.content` is `content` (`none` when absent or not a
string), or a thrown network/parse error. -/
inductive OROutcome where
  | notOk (status : Nat) (errText : String)
  | okResp (content : Option String)
  | exn (msg : String)
deriving DecidableEq, Repr

/-- The environment of one orchestrator call: configuration presence, the
reference-timezone date string, the clock, and the behaviour of the two
providers (the network is modelled as the response functions). -/
structure Env where
  geminiKey : Bool
  openrouterKey : Bool
  todayStr : String
  now : Nat
  primary : String → PrimaryOutcome
  orModels : List String
  orResp : String → OROutcome

/-- Order-preserving de-duplication, the `[...new Set(list)]` idiom. -/
def jsSetDedup (l : List String) : List String :=
  l.foldl (fun acc x => if x ∈ acc then acc else acc ++ [x]) []

/-- Embeds `getOpenRouterModels`: the preferred model (trimmed) followed by
the comma-separated fallbacks (trimmed, empties removed), de-duplicated
preserving order. -/
def getOpenRouterModels (preferredRaw fallbacksRaw : String) : List String :=
  let preferredModel := jsTrimS preferredRaw
  let fallbackModels :=
    (((splitOnCharL ',' fallbacksRaw.data).map (fun l => String.mk (jsTrimL l))).filter
      (fun s => s ≠ ""))
  jsSetDedup (preferredModel :: fallbackModels)

/-- The `lastError` string recorded for a failed model attempt, exactly as
formatted by `callOpenRouter`. -/
def orErrString (m : String) (o : OROutcome) : String :=
  match o with
  | .notOk status errText =>
    "model=" ++ m ++ ", status=" ++ toString status ++ ", error=" ++ jsSlice errText 200
  | .okResp _ => "model=" ++ m ++ ", status=200, error=empty content"
  | .exn msg => "model=" ++ m ++ ", error=" ++ msg

/-- The model-fallback loop of `callOpenRouter` (lines 71-123): try each
model in order; a non-2xx status, an absent/empty content or a thrown error
records `lastError` and advances; the first non-empty trimmed content is
returned.  After exhaustion the aggregate error names the last failure.
Alongside the result, the list of models actually attempted is returned (the
observable call trace). -/
def callOpenRouterGo (resp : String → OROutcome) :
    List String → Option String → Except String String × List String
  | [], lastError =>
    (Except.error ("OpenRouter all models failed: " ++ lastError.getD "unknown error"), [])
  | m :: rest, lastError =>
    match resp m with
    | .okResp (some c) =>
      if jsTrimS c = "" then
        ((callOpenRouterGo resp rest (some (orErrString m (.okResp (some c))))).1,
         m :: (callOpenRouterGo resp rest (some (orErrString m (.okResp (some c))))).2)
      else (Except.ok (jsTrimS c), [m])
    | .okResp none =>
      ((callOpenRouterGo resp rest (some (orErrString m (.okResp none)))).1,
       m :: (callOpenRouterGo resp rest (some (orErrString m (.okResp none)))).2)
    | .notOk status errText =>
      ((callOpenRouterGo resp rest (some (orErrString m (.notOk status errText)))).1,
       m :: (callOpenRouterGo resp rest (some (orErrString m (.notOk status errText)))).2)
    | .exn msg =>
      ((callOpenRouterGo resp rest (some (orErrString m (.exn msg)))).1,
       m :: (callOpenRouterGo resp rest (some (orErrString m (.exn msg)))).2)

/-- Embeds `callOpenRouter`: `null` (here `Option.none`) when no API key is
configured, otherwise the loop result. -/
def callOpenRouter (hasKey : Bool) (models : List String)
    (resp : String → OROutcome) : Except String (Option String) :=
  if hasKey then
    match (callOpenRouterGo resp models none).1 with
    | .ok s => .ok (some s)
    | .error e => .error e
  else .ok none

/-- The fixed empty-message reply. -/
def NO_MESSAGE_REPLY : String := "沒有收到訊息。"

/-- The fixed degraded-service reply on total provider exhaustion. -/
def DEGRADED_REPLY : String := "目前 AI 模型發生錯誤，請稍後再試。"

/-- The standard-tier primary model name. -/
def FLASH_MODEL : String := "gemini-2.5-flash"

/-- The reduced-tier primary model name. -/
def FLASH_LITE_MODEL : String := "gemini-2.5-flash-lite"

/-- The lazy daily rollover applied to the tracker at the start of every
primary attempt (lines 170-175): reset when the stored date differs from
today. -/
def rolledTracker (env : Env) (st : GState) : Tracker :=
  if st.tracker.date ≠ env.todayStr then ⟨env.todayStr, 0⟩ else st.tracker

/-- The tier decision (lines 178-181): lite once the rolled count reaches
`FLASH_THRESHOLD`, flash otherwise. -/
def selModel (env : Env) (st : GState) : String :=
  if FLASH_THRESHOLD ≤ (rolledTracker env st).flashCount then FLASH_LITE_MODEL
  else FLASH_MODEL

/-- The primary (Gemini) attempt of `generateChatReply` (lines 167-217):
skipped without a key; otherwise the rollover and tier decision run, the
provider is called, its trimmed text becomes the candidate reply, and on a
non-throwing call at the flash tier the counter is incremented.  A thrown
call is caught and leaves the empty candidate. -/
def primaryStep (env : Env) (st : GState) : String × Tracker :=
  if env.geminiKey then
    match env.primary (selModel env st) with
    | .ok t =>
      (jsTrimS t,
        if selModel env st = FLASH_MODEL then
          ⟨(rolledTracker env st).date, (rolledTracker env st).flashCount + 1⟩
        else rolledTracker env st)
    | .err => ("", rolledTracker env st)
  else ("", st.tracker)

/-- The secondary attempt (lines 220-229): only when the candidate is still
empty and a key is configured; a thrown aggregate error is caught and leaves
the candidate unchanged. -/
def secondaryStep (env : Env) (r1 : String) : String :=
  if r1 = "" ∧ env.openrouterKey = true then
    match callOpenRouter env.openrouterKey env.orModels env.orResp with
    | .ok (some t) => if t = "" then r1 else t
    | _ => r1
  else r1

/-- The history read with lazy expiry (lines 144-157): a fresh entry supplies
the history; an expired entry is deleted on access. -/
def readHistory (env : Env) (userId : Option String)
    (cache : List (String × CacheEntry)) : List Turn × List (String × CacheEntry) :=
  match userId with
  | none => ([], cache)
  | some uid =>
    match mapGet cache uid with
    | some e =>
      if env.now - e.lastUpdated < HISTORY_TTL_MS then (e.history, cache)
      else ([], mapDelete cache uid)
    | none => ([], cache)

/-- The memory append of a successful exchange (lines 234-239): push the user
and model turns, then trim to the most recent `MAX_HISTORY_LENGTH` turns. -/
def appendExchange (history : List Turn) (userContent modelContent : String) :
    List Turn :=
  let h := history ++ [⟨"user", userContent⟩, ⟨"model", modelContent⟩]
  if h.length > MAX_HISTORY_LENGTH then h.drop (h.length - MAX_HISTORY_LENGTH) else h

/-- Embeds `generateChatReply` (`src/lib/gemini.js` lines 130-251) as a pure
state transformer: the reply string plus the new module state.  The prompt
composition (pure string building with no effect on state or control flow)
is elided; provider behaviour is supplied by `env`.  Every provider failure
is caught inside, so the function is total — the JavaScript function never
throws to its caller. -/
def generateChatReply (env : Env) (userMessage : String) (userId : Option String)
    (st : GState) : String × GState :=
  if jsTrimS userMessage = "" then (NO_MESSAGE_REPLY, st) else
  let userHistory := (readHistory env userId st.cache).1
  let cache1 := (readHistory env userId st.cache).2
  let tracker1 := (primaryStep env st).2
  let finalReply := secondaryStep env (primaryStep env st).1
  if finalReply = "" then (DEGRADED_REPLY, ⟨cache1, tracker1⟩)
  else
    match userId with
    | some uid =>
      (finalReply,
       ⟨mapSet cache1 uid
          ⟨appendExchange userHistory (jsTrimS userMessage) finalReply, env.now⟩,
        tracker1⟩)
    | none => (finalReply, ⟨cache1, tracker1⟩)

/-! ## Schedule parser (`src/lib/schedule.js`) -/

/-- The fixed keyword set of the schedule gate. -/
def scheduleKeywords : List String :=
  ["訓練週期", "全馬組", "SUB", "週四", "warm up", "freejog"]

/-- Number of distinct gate keywords contained in the text
(`keywords.filter(k => text.includes(k)).length`). -/
def keywordMatchCount (text : String) : Nat :=
  (scheduleKeywords.filter (fun k => jsIncludes text k)).length

/-- Embeds `isTrainingSchedule`: a text qualifies only when its length is at
least 100 and at least three of the fixed keywords occur in it. -/
def isTrainingSchedule (text : String) : Bool :=
  if text.data.length < 100 then false
  else decide (3 ≤ keywordMatchCount text)

/-- Embeds `paceToSeconds` on a character list: strip everything but digits
and colons, trim, split on the colon, require exactly two numeric fields,
and combine them as minutes and seconds. -/
def paceToSecondsL (p : List Char) : Option Nat :=
  let cleaned := jsTrimL (p.filter (fun c => c.isDigit || c == ':'))
  match splitOnCharL ':' cleaned with
  | [a, b] =>
    match jsParseIntDigits a, jsParseIntDigits b with
    | some mins, some secs => some (mins * 60 + secs)
    | _, _ => none
  | _ => none

/-- Embeds `paceToSeconds` on strings. -/
def paceToSeconds (paceStr : String) : Option Nat := paceToSecondsL paceStr.data

/-- Embeds `paceToLapTime`, i.e. `Math.round(paceSeconds / 5)`: for a
non-negative argument `Math.round x = floor (x + 1/2)`, which over the
rationals `n/5` is `(2*n + 5) / 10` in integer division. -/
def paceToLapTime (paceSeconds : Nat) : Nat := (2 * paceSeconds + 5) / 10

/-- Group 1 and group 2 of the week-header match. -/
structure WeekMatch where
  weekPart : List Char
  periodPart : List Char
deriving DecidableEq, Repr

/-- Matcher for `(Week\s*\d+)\s+([\d/]+\s*[~-]\s*[\d/]+)` (flag `i`) anchored
at the current position; returns the two capture groups. -/
def matchWeekAt (s : List Char) : Option WeekMatch := do
  let s1 ← dropLitCI "week".data s
  let s2 := dropWs s1
  let (_, s3) ← takeWhile1 Char.isDigit s2
  let (_, s4) ← takeWhile1 isJsWs s3
  let (_, s5) ← takeWhile1 (fun c => c.isDigit || c == '/') s4
  let s6 := dropWs s5
  let s7 ← (dropLit ['~'] s6).orElse (fun _ => dropLit ['-'] s6)
  let s8 := dropWs s7
  let (_, s9) ← takeWhile1 (fun c => c.isDigit || c == '/') s8
  pure ⟨s.take (s.length - s3.length), (s.drop (s.length - s4.length)).take (s4.length - s9.length)⟩

/-- The `全馬組` literal. -/
def fmLit : List Char := "全馬組".data

/-- The `半馬組` literal. -/
def hmLit : List Char := "半馬組".data

/-- Embeds the block slice `/全馬組[\s\S]*?(?=半馬組|$)/`: from the first
`全馬組` up to (but excluding) the next `半馬組`, or to the end of text. -/
def fullMarathonBlockOf (tl : List Char) : Option (List Char) :=
  match indexOfSub fmLit tl with
  | none => none
  | some i =>
    let after := tl.drop (i + fmLit.length)
    match indexOfSub hmLit after with
    | some j => some ((tl.drop i).take (fmLit.length + j))
    | none => some (tl.drop i)

/-- One collected group header: normalized name, target label, match index. -/
structure GroupHeader where
  name : String
  target : String
  index : Nat
deriving DecidableEq, Repr

/-- Letters accepted by the group-header class `[A-IＡ-Ｉ]`. -/
def isGroupLetter (c : Char) : Bool :=
  ('A' ≤ c && c ≤ 'I') || (0xFF21 ≤ c.toNat && c.toNat ≤ 0xFF29)

/-- Full-width upper-case letters are shifted to half-width
(`name.replace(/[Ａ-Ｚ]/g, c => fromCharCode(code - 0xFEE0))`). -/
def toHalfWidth (c : Char) : Char :=
  if 0xFF21 ≤ c.toNat && c.toNat ≤ 0xFF3A then Char.ofNat (c.toNat - 0xFEE0) else c

/-- Matcher for `([A-IＡ-Ｉ])\s*SUB\s*([\d:~]+)` at the current position;
returns the letter, the target digits and the remaining suffix. -/
def matchGroupHeaderAt (s : List Char) : Option (Char × List Char × List Char) :=
  match s with
  | [] => none
  | c :: s1 =>
    if isGroupLetter c then do
      let s2 := dropWs s1
      let s3 ← dropLit "SUB".data s2
      let s4 := dropWs s3
      let (tgt, s5) ← takeWhile1 (fun ch => ch.isDigit || ch == ':' || ch == '~') s4
      pure (c, tgt, s5)
    else none

/-- The global multiline scan of `groupPattern`: at every line start try the
header matcher; after a hit, resume after the matched text (the `lastIndex`
behaviour of a sticky global regex).  `fuel` bounds the recursion and is
initialised to more steps than there are characters. -/
def scanGroupHeadersGo : Nat → List Char → Nat → Bool → List GroupHeader
  | 0, _, _, _ => []
  | _ + 1, [], _, _ => []
  | fuel + 1, c :: rest, idx, atLS =>
    if atLS then
      match matchGroupHeaderAt (c :: rest) with
      | some (letter, tgt, s5) =>
        { name := String.mk [toHalfWidth letter],
          target := "SUB " ++ String.mk tgt ++ " ",
          index := idx } ::
          scanGroupHeadersGo fuel s5 (idx + ((c :: rest).length - s5.length)) false
      | none => scanGroupHeadersGo fuel rest (idx + 1) (c == '\n' || c == '\r')
    else scanGroupHeadersGo fuel rest (idx + 1) (c == '\n' || c == '\r')

/-- All `groupPattern` matches of a block, in match order. -/
def scanGroupHeaders (s : List Char) : List GroupHeader :=
  scanGroupHeadersGo (s.length + 1) s 0 true

/-- Matcher for `S\s+SUB\s*([\d:~]+)` at the current position; returns the
whole matched text and the target digits. -/
def matchSHeaderAt (s : List Char) : Option (List Char × List Char) :=
  match s with
  | [] => none
  | c :: s1 =>
    if c == 'S' then do
      let (_, s2) ← takeWhile1 isJsWs s1
      let s3 ← dropLit "SUB".data s2
      let s4 := dropWs s3
      let (tgt, s5) ← takeWhile1 (fun ch => ch.isDigit || ch == ':' || ch == '~') s4
      pure (s.take (s.length - s5.length), tgt)
    else none

/-- First line-anchored match of a matcher (the single-match `m`-flag regex
used for the `S` header). -/
def scanAnchoredFirst {α : Type} (f : List Char → Option α) :
    List Char → Bool → Option α
  | [], atLS => if atLS then f [] else none
  | c :: rest, atLS =>
    if atLS then
      match f (c :: rest) with
      | some r => some r
      | none => scanAnchoredFirst f rest (c == '\n' || c == '\r')
    else scanAnchoredFirst f rest (c == '\n' || c == '\r')

/-- Stable insertion of a header into an index-sorted list (the ES2019
stable `sort((a, b) => a.index - b.index)`). -/
def insertHeader (h : GroupHeader) : List GroupHeader → List GroupHeader
  | [] => [h]
  | x :: xs => if x.index ≤ h.index then x :: insertHeader h xs else h :: x :: xs

/-- Stable sort of the headers by match index. -/
def sortByIndex (l : List GroupHeader) : List GroupHeader :=
  l.foldl (fun acc h => insertHeader h acc) []

/-- Collects the group headers of the full-marathon block: the global scan,
the special-cased `S` header (prepended when no `S` was already found, at
the `indexOf` of its matched text), then the stable sort by index. -/
def collectGroupHeaders (block : List Char) : List GroupHeader :=
  let hs := scanGroupHeaders block
  let hs2 :=
    match scanAnchoredFirst matchSHeaderAt block true with
    | some (matched, tgt) =>
      if hs.any (fun g => g.name == "S") then hs
      else
        { name := "S", target := "SUB " ++ String.mk tgt ++ " ",
          index := (indexOfSub matched block).getD 0 } :: hs
    | none => hs
  sortByIndex hs2

/-- The captured parts of one interval specification. -/
structure IntervalMatch where
  distance : String
  repsMin : String
  repsMax : Option String
  paceRaw : List Char
deriving DecidableEq, Repr

/-- The `(1200|800)` alternation at the current position. -/
def matchDistanceAt (s : List Char) : Option (String × List Char) :=
  match dropLit "1200".data s with
  | some r => some ("1200", r)
  | none =>
    match dropLit "800".data s with
    | some r => some ("800", r)
    | none => none

/-- The remainder of the interval pattern after the distance:
`\s*[xX×]\s*(\d+)(?:\s*~\s*(\d+))?\s*@\s*([\d:~!]+)\/km`. -/
def matchIntervalTail (s1 : List Char) : Option (String × Option String × List Char) := do
  let s2 := dropWs s1
  let s3 ← match s2 with
    | c :: t => if c == 'x' || c == 'X' || c == '×' then some t else none
    | [] => none
  let s4 := dropWs s3
  let (d1, s5) ← takeWhile1 Char.isDigit s4
  let (repsMax, s6) :=
    match (do
      let a := dropWs s5
      let b ← dropLit ['~'] a
      takeWhile1 Char.isDigit (dropWs b)) with
    | some (d2, r) => (some (String.mk d2), r)
    | none => (none, s5)
  let s7 := dropWs s6
  let s8 ← dropLit ['@'] s7
  let s9 := dropWs s8
  let (pr, s10) ← takeWhile1 (fun c => c.isDigit || c == ':' || c == '~' || c == '!') s9
  let _ ← dropLit "/km".data s10
  pure (String.mk d1, repsMax, pr)

/-- Matcher for the full interval pattern at the current position. -/
def matchIntervalAt (s : List Char) : Option IntervalMatch :=
  (matchDistanceAt s).bind (fun p =>
    (matchIntervalTail p.2).map (fun t =>
      { distance := p.1, repsMin := t.1, repsMax := t.2.1, paceRaw := t.2.2 }))

/-- Quote characters of the rest-interval class `[\d''"]`: the straight
ASCII single and double quotes that appear in the source's class. -/
def isRestQuote (c : Char) : Bool :=
  c == Char.ofNat 0x27 || c == Char.ofNat 0x22

/-- Matcher for the rest pattern `R\s*[:：]\s*([\d''"]+)`. -/
def matchRestAt (s : List Char) : Option (List Char) :=
  match s with
  | [] => none
  | c :: s1 =>
    if c == 'R' then do
      let s2 := dropWs s1
      let s3 ← match s2 with
        | d :: t => if d == ':' || d == '：' then some t else none
        | [] => none
      let s4 := dropWs s3
      let (r, _) ← takeWhile1 (fun ch => ch.isDigit || isRestQuote ch) s4
      pure r
    else none

/-- The two replace passes applied to the matched rest token; with the
straight-quote classes of the source each pass maps a straight quote to the
same straight quote, kept here exactly as the source pipeline writes it. -/
def normQuote (c : Char) : Char :=
  if c == Char.ofNat 0x27 then Char.ofNat 0x27
  else if c == Char.ofNat 0x22 then Char.ofNat 0x22
  else c

/-- One parsed schedule group. -/
structure ScheduleGroup where
  name : String
  target : String
  distance : String
  reps : String
  paces : List (Option String)
  lapTimes : List Nat
  rest : String
  lapsPerRep : Nat
deriving DecidableEq, Repr

/-- One parsed schedule document. -/
structure ScheduleDoc where
  weekLabel : String
  periodStr : Option String
  groups : List ScheduleGroup
deriving DecidableEq, Repr

/-- Builds one group from its block slice (`parseSchedule` lines 149-188):
the first interval match supplies distance/reps/paces; the pace range is
typo-corrected, split on `~`, trimmed, parsed, and entries whose seconds are
falsy are dropped; lap times are mapped from the kept seconds; the rest
pattern is extracted with a `?` default. -/
def buildGroup (block : List Char) (h : GroupHeader) (endIdx : Nat) :
    Option ScheduleGroup :=
  let sub := (block.take endIdx).drop h.index
  match scanFirst matchIntervalAt sub with
  | none => none
  | some iv =>
    let reps :=
      match iv.repsMax with
      | some mx => iv.repsMin ++ " ~" ++ mx ++ " "
      | none => iv.repsMin
    let paceRaw := iv.paceRaw.map (fun c => if c == '!' then '1' else c)
    let parts := (splitOnCharL '~' paceRaw).map jsTrimL
    let kept := parts.filterMap (fun p =>
      match paceToSecondsL p with
      | some n =>
        if n ≠ 0 then some ((if p.contains ':' then some (String.mk p) else none), n)
        else none
      | none => none)
    let rest :=
      match scanFirst matchRestAt sub with
      | some r => String.mk (r.map normQuote)
      | none => "?"
    some
      { name := h.name, target := h.target, distance := iv.distance, reps := reps
        paces := kept.map (fun k => k.1)
        lapTimes := kept.map (fun k => paceToLapTime k.2)
        rest := rest
        lapsPerRep := if iv.distance == "1200" then 6 else 4 }

/-- Pairs each header with the start index of the next one (or the block
length for the last header). -/
def withEnds : List GroupHeader → Nat → List (GroupHeader × Nat)
  | [], _ => []
  | [h], blockLen => [(h, blockLen)]
  | h :: h2 :: t, blockLen => (h, h2.index) :: withEnds (h2 :: t) blockLen

/-- All successfully built groups of a block, in header order (headers whose
span lacks an interval specification are silently dropped). -/
def buildGroups (block : List Char) (headers : List GroupHeader) :
    List ScheduleGroup :=
  (withEnds headers block.length).filterMap (fun pe => buildGroup block pe.1 pe.2)

/-- Embeds `parseSchedule` (`src/lib/schedule.js` lines 107-193). -/
def parseSchedule (text : String) : Option ScheduleDoc :=
  let tl := text.data
  let wk := scanFirst matchWeekAt tl
  let weekLabel :=
    match wk with
    | some w => String.mk (jsTrimL w.weekPart)
    | none => "本週"
  let periodStr :=
    match wk with
    | some w => some (String.mk (w.periodPart.filter (fun c => !isJsWs c)))
    | none => none
  match fullMarathonBlockOf tl with
  | none => none
  | some block =>
    let groups := buildGroups block (collectGroupHeaders block)
    if groups.isEmpty then none else some ⟨weekLabel, periodStr, groups⟩

/-- One cached schedule entry (`{ data, timestamp }`). -/
structure SchedEntry where
  data : ScheduleDoc
  timestamp : Nat
deriving DecidableEq, Repr

/-- The per-source, per-period schedule store
(`Map<sourceId, Map<period, entry>>`), modelled as nested association lists
in insertion order. -/
def SchedStore : Type := List (String × List (String × SchedEntry))

/-- JavaScript falsiness of an optional string (`null` / empty). -/
def jsFalsyOpt (o : Option String) : Bool :=
  match o with
  | none => true
  | some s => s == ""

/-- Generic association-list `Map.set` (replace in place or append). -/
def alistSet {α : Type} (m : List (String × α)) (k : String) (v : α) :
    List (String × α) :=
  if (m.find? (fun p => p.1 == k)).isSome then
    m.map (fun p => if p.1 == k then (k, v) else p)
  else m ++ [(k, v)]

/-- The newest timestamp of a period map (`Math.max` over the entries). -/
def latestTs (pm : List (String × SchedEntry)) : Nat :=
  pm.foldl (fun a p => max a p.2.timestamp) 0

/-- The in-memory effect of `saveSchedulesToDB`: sources whose newest entry
is older than `SCHEDULE_CLEANUP` are removed from the store (the file write
itself is I/O out of scope). -/
def saveSchedulesPurge (now : Nat) (store : SchedStore) : SchedStore :=
  store.filter (fun p => !(SCHEDULE_CLEANUP < now - latestTs p.2))

/-- Embeds `cacheSchedule` (`src/lib/schedule.js` lines 242-258): a falsy
`periodStr` or a falsy source identity returns before touching the store;
otherwise the entry is written under `(sourceId, periodStr)` and the store
is persisted (with its purge pass). -/
def cacheSchedule (now : Nat) (sourceId : String) (parsed : ScheduleDoc)
    (store : SchedStore) : SchedStore :=
  if jsFalsyOpt parsed.periodStr || sourceId == "" then store
  else
    match parsed.periodStr with
    | none => store
    | some period =>
      let periodsMap := ((store.find? (fun p => p.1 == sourceId)).map
        (fun p => p.2)).getD []
      saveSchedulesPurge now
        (alistSet store sourceId (alistSet periodsMap period ⟨parsed, now⟩))

/-! ## Claim C6 — pace / lap-time arithmetic -/

/-- C6: for every valid `MM:SS` pace string, the derived 200 m lap time is
the rounded fifth of the pace seconds, and multiplying the lap time back by
five reproduces the original pace seconds within two seconds; in particular
240 pace seconds yield a 48-second lap. -/
theorem pace_lap_roundtrip (s : String) (n : Nat) (h : paceToSeconds s = some n) :
    paceToLapTime n * 5 ≤ n + 2 ∧ n ≤ paceToLapTime n * 5 + 2 ∧
      paceToLapTime 240 = 48 := by
  refine ⟨?_, ?_, by decide⟩ <;> · unfold paceToLapTime; omega

/-- Witness for C6 at the pace string `04:00`. -/
theorem pace_lap_roundtrip_witness :
    paceToSeconds "04:00" = some 240 ∧
      (paceToLapTime 240 * 5 ≤ 240 + 2 ∧ 240 ≤ paceToLapTime 240 * 5 + 2 ∧
        paceToLapTime 240 = 48) :=
  ⟨by decide, pace_lap_roundtrip "04:00" 240 (by decide)⟩

/-! ## Claim C8 — schedule gate -/

/-- C8: the gate accepts a text exactly when its length reaches the floor of
100 characters and at least three distinct members of the fixed keyword set
occur in it; two matched keywords always reject, three with sufficient
length always accept. -/
theorem isTrainingSchedule_gate (text : String) :
    (isTrainingSchedule text = true ↔
      100 ≤ text.data.length ∧ 3 ≤ keywordMatchCount text)
    ∧ (keywordMatchCount text = 2 → isTrainingSchedule text = false)
    ∧ (100 ≤ text.data.length → 3 ≤ keywordMatchCount text →
        isTrainingSchedule text = true) := by
  have hiff : isTrainingSchedule text = true ↔
      100 ≤ text.data.length ∧ 3 ≤ keywordMatchCount text := by
    unfold isTrainingSchedule
    by_cases hl : text.data.length < 100
    · rw [if_pos hl]
      exact ⟨fun hb => absurd hb (by simp), fun h12 => absurd h12.1 (by omega)⟩
    · rw [if_neg hl]
      simp only [decide_eq_true_eq]
      constructor
      · intro hk
        exact ⟨by omega, hk⟩
      · intro hk
        exact hk.2
  refine ⟨hiff, ?_, ?_⟩
  · intro h2
    cases hb : isTrainingSchedule text with
    | false => rfl
    | true =>
      have := (hiff.mp hb).2
      omega
  · intro hl hk
    exact hiff.mpr ⟨hl, hk⟩

/-- Witness for C8: a 100-plus-character message containing three gate
keywords is accepted. -/
theorem isTrainingSchedule_gate_witness :
    isTrainingSchedule
      ("訓練週期 Week9 全馬組 A SUB 330 1200 x 4 @ 04:00/km 週四集合 " ++
       "0123456789012345678901234567890123456789012345678901234567890123456789") =
      true :=
  (isTrainingSchedule_gate _).2.2 (by decide) (by decide)

/-! ## Claim C10 — cache frame on unkeyable documents -/

/-- C10: a parse result without a period string, or a call without a source
identity, leaves the schedule store exactly as it was; nothing is cached,
so no later lookup of the store can see the document. -/
theorem cacheSchedule_frame (now : Nat) (sourceId : String) (parsed : ScheduleDoc)
    (store : SchedStore) (h : parsed.periodStr = none ∨ sourceId = "") :
    cacheSchedule now sourceId parsed store = store := by
  unfold cacheSchedule
  rcases h with h | h
  · rw [if_pos]
    simp [jsFalsyOpt, h]
  · rw [if_pos]
    simp [h]

/-- Witness for C10: a document with a period but an empty source identity
leaves a non-empty store untouched. -/
theorem cacheSchedule_frame_witness :
    cacheSchedule 5 ""
        ⟨"本週", some "02/23-03/01", []⟩
        [("group1", [("02/23-03/01", ⟨⟨"本週", some "02/23-03/01", []⟩, 0⟩)])] =
      [("group1", [("02/23-03/01", ⟨⟨"本週", some "02/23-03/01", []⟩, 0⟩)])] :=
  cacheSchedule_frame 5 "" ⟨"本週", some "02/23-03/01", []⟩
    [("group1", [("02/23-03/01", ⟨⟨"本週", some "02/23-03/01", []⟩, 0⟩)])] (Or.inr rfl)

/-! ## Claim C2 — URL sanitization (corrected) -/

/-- The truncation step never leaves more than 1000 characters. -/
theorem truncate1000_length (s : String) : (truncate1000 s).data.length ≤ 1000 := by
  unfold truncate1000 jsSlice
  split
  · simp only [List.length_take]
    omega
  · omega

/-- C2 (amended): a `mapUrl` that fails URL parsing (or carries a non-http(s)
protocol) is replaced by the search URL built from the record name, truncated
to the limit; but a parseable http(s) URL longer than the limit is kept and
truncated to its first 1000 characters — it is not replaced.  Every rendered
button URL respects the limit, and the carousel button URLs are exactly the
sanitized URLs of the first ten records. -/
theorem safeMapUrl_sanitization (r : Restaurant) (rs : List Restaurant) :
    (jsUrlHref (jsOrS r.mapUrl "") = none →
      safeMapUrlOf r = truncate1000 (googleMapsSearchUrl (jsOrS r.name "餐廳")))
    ∧ (∀ href, jsUrlHref (jsOrS r.mapUrl "") = some href →
        (jsStartsWith href "http://" || jsStartsWith href "https://") = false →
        safeMapUrlOf r = truncate1000 (googleMapsSearchUrl (jsOrS r.name "餐廳")))
    ∧ (∀ href, jsUrlHref (jsOrS r.mapUrl "") = some href →
        (jsStartsWith href "http://" || jsStartsWith href "https://") = true →
        1000 < href.data.length →
        safeMapUrlOf r = jsSlice href 1000)
    ∧ (safeMapUrlOf r).data.length ≤ 1000
    ∧ (buildRestaurantCarousel rs).map FlexBubble.uri = (rs.take 10).map safeMapUrlOf := by
  refine ⟨?_, ?_, ?_, ?_, ?_⟩
  · intro h
    simp only [safeMapUrlOf, h]
  · intro href h hns
    simp only [safeMapUrlOf, h]
    rw [if_neg (by simp [hns])]
  · intro href h hstart hlen
    simp only [safeMapUrlOf, h]
    rw [if_pos hstart]
    simp only [truncate1000]
    rw [if_pos hlen]
  · exact truncate1000_length _
  · unfold buildRestaurantCarousel
    rw [List.map_map]
    rfl

/-- The concrete over-length but well-formed https URL of the C2
counterexample. -/
def longUrl : String := "https://example.com/" ++ String.mk (List.replicate 1000 'a')

/-- The concrete record carrying `longUrl` as its `mapUrl`. -/
def longUrlRest : Restaurant :=
  { name := some "X", rating := none, price := none, item := none,
    mapUrl := some longUrl }

set_option maxRecDepth 40000 in
/-- Counterexample to C2 as stated: for a record whose well-formed https
`mapUrl` exceeds the 1000-character limit, the rendered button URL is the
1000-character truncation of the original URL — it still starts with the
original host and is not the claimed search-query URL built from the name. -/
theorem long_valid_url_truncated_not_replaced :
    (buildRestaurantCarousel [longUrlRest]).map FlexBubble.uri = [jsSlice longUrl 1000]
    ∧ jsStartsWith (jsSlice longUrl 1000) "https://example.com/" = true
    ∧ jsSlice longUrl 1000 ≠ truncate1000 (googleMapsSearchUrl "X") := by
  refine ⟨?_, by decide, by decide⟩
  have h1 : jsUrlHref (jsOrS longUrlRest.mapUrl "") = some longUrl := by decide
  have h2 : (jsStartsWith longUrl "http://" || jsStartsWith longUrl "https://") = true := by
    decide
  have h3 : 1000 < longUrl.data.length := by decide
  have := ((safeMapUrl_sanitization longUrlRest []).2.2.1) longUrl h1 h2 h3
  simp [buildRestaurantCarousel, mkBubble, this]

/-- Witness for the amended C2: a record whose `mapUrl` does not parse gets
the constructed search URL built from its name. -/
def badUrlRest : Restaurant :=
  { name := some "Cafe", rating := none, price := none, item := none,
    mapUrl := some "not a url" }

/-- Witness for the amended C2's other fallback case: a `mapUrl` that parses
but carries a non-http(s) protocol. -/
def ftpUrlRest : Restaurant :=
  { name := some "FTP店", rating := none, price := none, item := none,
    mapUrl := some "ftp://files.example/x" }

/-- Witness instantiating the amended C2 at `badUrlRest` (parse failure) and
at `ftpUrlRest` (parsed, non-http(s) protocol). -/
theorem safeMapUrl_sanitization_witness :
    (jsUrlHref (jsOrS badUrlRest.mapUrl "") = none ∧
      safeMapUrlOf badUrlRest =
        truncate1000 (googleMapsSearchUrl (jsOrS badUrlRest.name "餐廳")))
    ∧ (jsUrlHref (jsOrS ftpUrlRest.mapUrl "") = some "ftp://files.example/x" ∧
      safeMapUrlOf ftpUrlRest =
        truncate1000 (googleMapsSearchUrl (jsOrS ftpUrlRest.name "餐廳"))) :=
  ⟨⟨by decide, (safeMapUrl_sanitization badUrlRest []).1 (by decide)⟩,
   ⟨by decide,
    (safeMapUrl_sanitization ftpUrlRest []).2.1 "ftp://files.example/x"
      (by decide) (by decide)⟩⟩

/-! ## Claim C9 — carousel caps at ten records -/

/-- C9: when the parsed array has more than ten records (an explicit prefix
of ten plus any remainder), exactly the first ten are rendered as bubbles in
their original order, every later record is dropped, and the reconciled
message list carries exactly that carousel with the optional lead text. -/
theorem carousel_first_ten (first10 rest : List Restaurant) (intro : String)
    (h10 : first10.length = 10) :
    buildRestaurantCarousel (first10 ++ rest) = first10.map mkBubble
    ∧ buildRestaurantCarousel (first10 ++ rest) = buildRestaurantCarousel first10
    ∧ tryParseFlexMessages intro (first10 ++ rest) =
        some ((if intro = "" then [] else [FlexMsg.text intro]) ++
          [FlexMsg.flex FLEX_ALT (first10.map mkBubble)]) := by
  have htake : (first10 ++ rest).take 10 = first10 := by
    rw [← h10]
    exact List.take_left first10 rest
  have htake2 : first10.take 10 = first10 := by
    rw [← h10]
    exact List.take_length first10
  have hb : buildRestaurantCarousel (first10 ++ rest) = first10.map mkBubble := by
    unfold buildRestaurantCarousel
    rw [htake]
  have hne : (first10.map mkBubble).isEmpty = false := by
    rw [List.isEmpty_eq_false]
    intro hnil
    have := congrArg List.length hnil
    simp [h10] at this
  refine ⟨hb, ?_, ?_⟩
  · rw [hb]
    unfold buildRestaurantCarousel
    rw [htake2]
  · simp only [tryParseFlexMessages, hb, hne]
    by_cases hi : intro = ""
    · simp [hi]
    · simp [hi]

/-! ## Claim C5 — history bound and suffix invariant -/

/-- Appending one exchange to a trimmed history equals trimming the fully
accumulated turn list: the key step lemma behind the memory invariant. -/
theorem appendExchange_suffix (T : List Turn) (u m : String) :
    appendExchange (T.drop (T.length - MAX_HISTORY_LENGTH)) u m =
      (T ++ [Turn.mk "user" u, Turn.mk "model" m]).drop
        ((T.length + 2) - MAX_HISTORY_LENGTH) := by
  unfold appendExchange MAX_HISTORY_LENGTH
  dsimp only
  by_cases hL : T.length < 6
  · have h0 : T.length - 6 = 0 := by omega
    rw [h0, List.drop_zero]
    split
    · congr 1
      simp
    · have h1 : T.length + 2 - 6 = 0 := by
        simp only [List.length_append, List.length_cons, List.length_nil] at *
        omega
      rw [h1, List.drop_zero]
  · have hlen : (T.drop (T.length - 6)).length = 6 := by
      rw [List.length_drop]
      omega
    have hgt : (T.drop (T.length - 6) ++ [Turn.mk "user" u, Turn.mk "model" m]).length > 6 := by
      simp only [List.length_append, hlen, List.length_cons, List.length_nil]
      omega
    rw [if_pos hgt]
    have h2 : (T.drop (T.length - 6) ++ [Turn.mk "user" u, Turn.mk "model" m]).length - 6 = 2 := by
      simp only [List.length_append, hlen, List.length_cons, List.length_nil]
    rw [h2, List.drop_append_eq_append_drop, List.drop_drop]
    have h3 : T.length - 6 + 2 = T.length - 4 := by omega
    have h4 : 2 - (T.drop (T.length - 6)).length = 0 := by omega
    rw [h3, h4, List.drop_zero, List.drop_append_eq_append_drop]
    have h5 : T.length + 2 - 6 = T.length - 4 := by omega
    have h6 : T.length - 4 - T.length = 0 := by omega
    rw [h5, h6, List.drop_zero]

/-- The turn list accumulated by a sequence of exchanges. -/
def exchangeTurns (exchanges : List (String × String)) : List Turn :=
  exchanges.flatMap (fun e => [⟨"user", e.1⟩, ⟨"model", e.2⟩])

/-- C5: after any sequence of successful exchanges (each appending one user
turn and one model turn through `appendExchange`, the memory update of
`generateChatReply`), the stored history is exactly the most recent turns of
the full chronological turn list (trimmed oldest-first) and never exceeds
`MAX_HISTORY_LENGTH` turns. -/
theorem history_bound_and_suffix (exchanges : List (String × String)) :
    (exchanges.foldl (fun h e => appendExchange h e.1 e.2) []) =
      (exchangeTurns exchanges).drop
        ((exchangeTurns exchanges).length - MAX_HISTORY_LENGTH)
    ∧ (exchanges.foldl (fun h e => appendExchange h e.1 e.2) []).length ≤
        MAX_HISTORY_LENGTH := by
  have main : (exchanges.foldl (fun h e => appendExchange h e.1 e.2) []) =
      (exchangeTurns exchanges).drop
        ((exchangeTurns exchanges).length - MAX_HISTORY_LENGTH) := by
    induction exchanges using List.reverseRecOn with
    | nil => rfl
    | append_singleton es e ih =>
      rw [List.foldl_append, List.foldl_cons, List.foldl_nil, ih]
      unfold exchangeTurns
      rw [List.flatMap_append]
      simp only [List.flatMap_cons, List.flatMap_nil, List.append_nil]
      have hlen2 : ((es.flatMap fun x => ([Turn.mk "user" x.1, Turn.mk "model" x.2] : List Turn)) ++
          [Turn.mk "user" e.1, Turn.mk "model" e.2]).length =
          (es.flatMap fun x => ([Turn.mk "user" x.1, Turn.mk "model" x.2] : List Turn)).length + 2 := by
        simp
      rw [hlen2]
      exact appendExchange_suffix _ e.1 e.2
  refine ⟨main, ?_⟩
  rw [main, List.length_drop]
  omega

/-! ## Claim C4 — secondary-provider fallback order -/

/-- Whether an attempt outcome counts as that model's failure: a non-2xx
status, a thrown error, an absent content field, or content that is empty
after trimming. -/
def orFails (o : OROutcome) : Bool :=
  match o with
  | .okResp (some c) => jsTrimS c == ""
  | _ => true

/-- A failing head model contributes its error string and its trace entry,
then the loop continues on the tail. -/
theorem callOpenRouterGo_failStep (resp : String → OROutcome) (m : String)
    (rest : List String) (le : Option String) (hf : orFails (resp m) = true) :
    callOpenRouterGo resp (m :: rest) le =
      ((callOpenRouterGo resp rest (some (orErrString m (resp m)))).1,
       m :: (callOpenRouterGo resp rest (some (orErrString m (resp m)))).2) := by
  cases hm : resp m with
  | okResp content =>
    cases content with
    | some c =>
      simp only [orFails] at hf
      rw [hm] at hf
      simp only [beq_iff_eq] at hf
      simp [callOpenRouterGo, hm, hf]
    | none => simp [callOpenRouterGo, hm]
  | notOk status errText => simp [callOpenRouterGo, hm]
  | exn msg => simp [callOpenRouterGo, hm]

/-- When every model in `ms ++ [m]` fails, the loop returns the aggregate
error naming the last model's failure, after attempting every model. -/
theorem callOpenRouterGo_allFail (resp : String → OROutcome) (ms : List String)
    (m : String) :
    ∀ le, (∀ x ∈ ms ++ [m], orFails (resp x) = true) →
      callOpenRouterGo resp (ms ++ [m]) le =
        (Except.error ("OpenRouter all models failed: " ++ orErrString m (resp m)),
         ms ++ [m]) := by
  induction ms with
  | nil =>
    intro le hall
    have hm : orFails (resp m) = true := hall m (by simp)
    rw [List.nil_append, callOpenRouterGo_failStep resp m [] le hm]
    simp [callOpenRouterGo]
  | cons m' ms' ih =>
    intro le hall
    have hm' : orFails (resp m') = true := hall m' (by simp)
    rw [List.cons_append, callOpenRouterGo_failStep resp m' (ms' ++ [m]) le hm']
    rw [ih (some (orErrString m' (resp m'))) (fun x hx => hall x (by simp [hx]))]

/-- When every model before `m` fails and `m` succeeds with non-empty
content, the loop returns `m`'s trimmed content and attempts exactly the
models up to and including `m` — nothing after `m`. -/
theorem callOpenRouterGo_firstSuccess (resp : String → OROutcome)
    (pre : List String) (m : String) (post : List String) (c : String) :
    ∀ le, (∀ x ∈ pre, orFails (resp x) = true) →
      resp m = .okResp (some c) → jsTrimS c ≠ "" →
      callOpenRouterGo resp (pre ++ m :: post) le =
        (Except.ok (jsTrimS c), pre ++ [m]) := by
  induction pre with
  | nil =>
    intro le _ hm hc
    simp [callOpenRouterGo, hm, hc]
  | cons p ps ih =>
    intro le hall hm hc
    have hp : orFails (resp p) = true := hall p (by simp)
    rw [List.cons_append, callOpenRouterGo_failStep resp p (ps ++ m :: post) le hp]
    rw [ih (some (orErrString p (resp p))) (fun x hx => hall x (by simp [hx])) hm hc]
    rfl

/-- Whatever the outcomes, when every model fails the loop result is an
error (used by the orchestrator's total-failure analysis). -/
theorem callOpenRouterGo_allFail_isError (resp : String → OROutcome) :
    ∀ (models : List String) (le : Option String),
      (∀ x ∈ models, orFails (resp x) = true) →
      ∃ e, (callOpenRouterGo resp models le).1 = Except.error e := by
  intro models
  induction models with
  | nil => exact fun le _ => ⟨_, rfl⟩
  | cons m rest ih =>
    intro le hall
    have hm : orFails (resp m) = true := hall m (by simp)
    rw [callOpenRouterGo_failStep resp m rest le hm]
    exact ih (some (orErrString m (resp m))) (fun x hx => hall x (by simp [hx]))

/-- `jsSetDedup` produces no duplicates. -/
theorem jsSetDedup_nodup (l : List String) : (jsSetDedup l).Nodup := by
  have aux : ∀ (l2 : List String) (acc : List String), acc.Nodup →
      (l2.foldl (fun a x => if x ∈ a then a else a ++ [x]) acc).Nodup := by
    intro l2
    induction l2 with
    | nil => exact fun acc h => h
    | cons x xs ih =>
      intro acc hacc
      rw [List.foldl_cons]
      by_cases hx : x ∈ acc
      · rw [if_pos hx]
        exact ih acc hacc
      · rw [if_neg hx]
        refine ih (acc ++ [x]) ?_
        simp [List.nodup_append, hacc, hx]
  exact aux l [] List.nodup_nil

/-- C4: over its ordered de-duplicated model list the secondary provider
attempts models strictly in order — every failure advances, the first
success is returned with no later model attempted, and full exhaustion
raises a single aggregate error naming the last failure; the configured
model list itself is duplicate-free. -/
theorem callOpenRouter_fallback_order (resp : String → OROutcome) :
    (∀ pre m post c, (∀ x ∈ pre, orFails (resp x) = true) →
       resp m = .okResp (some c) → jsTrimS c ≠ "" →
       callOpenRouterGo resp (pre ++ m :: post) none =
         (Except.ok (jsTrimS c), pre ++ [m]))
    ∧ (∀ ms m, (∀ x ∈ ms ++ [m], orFails (resp x) = true) →
       callOpenRouterGo resp (ms ++ [m]) none =
         (Except.error ("OpenRouter all models failed: " ++ orErrString m (resp m)),
          ms ++ [m]))
    ∧ (∀ p f, (getOpenRouterModels p f).Nodup) :=
  ⟨fun pre m post c h1 h2 h3 =>
     callOpenRouterGo_firstSuccess resp pre m post c none h1 h2 h3,
   fun ms m h => callOpenRouterGo_allFail resp ms m none h,
   fun _ _ => jsSetDedup_nodup _⟩

/-- The concrete secondary behaviour of the C4 witness: model `A` is down,
models `B` and `C` answer. -/
def respW : String → OROutcome := fun s =>
  if s = "A" then .exn "down"
  else if s = "B" then .okResp (some " hello ")
  else .okResp (some "later")

/-- Witness for C4: with `A` failing and `B` succeeding, the loop returns
`B`'s trimmed content having attempted exactly `A` then `B`, never `C`. -/
theorem callOpenRouter_fallback_order_witness :
    callOpenRouterGo respW (["A"] ++ "B" :: ["C"]) none =
      (Except.ok (jsTrimS " hello "), ["A"] ++ ["B"]) :=
  (callOpenRouter_fallback_order respW).1 ["A"] "B" ["C"] " hello "
    (by decide) (by decide) (by decide)

/-! ## Claims C1 and C3 — orchestrator effects -/

/-- Whether the primary attempt counts as failed for the orchestrator: the
call throws, or its text is empty after trimming. -/
def primaryFails (env : Env) (st : GState) : Bool :=
  match env.primary (selModel env st) with
  | .err => true
  | .ok t => jsTrimS t == ""

/-- Whether the primary attempt returned empty text without throwing (the
call the source still counts against the flash quota). -/
def primaryEmptyOkB (env : Env) (st : GState) : Bool :=
  match env.primary (selModel env st) with
  | .ok t => jsTrimS t == ""
  | .err => false

/-- The rolled tracker always carries today's date. -/
theorem rolledTracker_date (env : Env) (st : GState) :
    (rolledTracker env st).date = env.todayStr := by
  unfold rolledTracker
  split
  · rfl
  · rename_i h
    rw [not_not] at h
    exact h

/-- The rolled tracker is today's date paired with its own count. -/
theorem rolledTracker_eta (env : Env) (st : GState) :
    rolledTracker env st = ⟨env.todayStr, (rolledTracker env st).flashCount⟩ := by
  unfold rolledTracker
  split
  · rfl
  · rename_i h
    rw [not_not] at h
    rw [← h]

/-- Deleting a key answers `none` for it and leaves every other lookup. -/
theorem mapGet_mapDelete_eq (mm : List (String × CacheEntry)) (k k' : String) :
    mapGet (mapDelete mm k) k' = if k' = k then none else mapGet mm k' := by
  induction mm with
  | nil =>
    simp only [mapDelete, List.filter_nil, mapGet, List.find?_nil, Option.map_none]
    split <;> rfl
  | cons p rest ih =>
    simp only [mapDelete, List.filter_cons] at *
    by_cases hpk : p.1 = k
    · have hc : (!(p.1 == k)) = false := by simp [hpk]
      rw [hc]
      simp only [Bool.false_eq_true, if_false]
      rw [ih]
      by_cases hkk : k' = k
      · simp [hkk]
      · rw [if_neg hkk, if_neg hkk]
        have hpk' : (p.1 == k') = false := by
          simp only [beq_eq_false_iff_ne, ne_eq]
          rw [hpk]
          exact fun hh => hkk hh.symm
        simp [mapGet, List.find?_cons, hpk']
    · have hc : (!(p.1 == k)) = true := by simp [hpk]
      rw [hc]
      simp only [if_true]
      by_cases hpk' : p.1 = k'
      · have hb : (p.1 == k') = true := by simp [hpk']
        simp only [mapGet, List.find?_cons, hb, Option.map_some]
        rw [if_neg]
        intro hkk
        rw [hkk] at hpk'
        exact hpk hpk'
      · have hb : (p.1 == k') = false := by simp [hpk']
        simp only [mapGet, List.find?_cons, hb]
        exact ih

/-- The history read never adds or alters entries: every lookup that
succeeds afterwards succeeded with the same value before. -/
theorem readHistory_frame (env : Env) (uid : Option String)
    (cache : List (String × CacheEntry)) (k : String) (e : CacheEntry) :
    mapGet (readHistory env uid cache).2 k = some e → mapGet cache k = some e := by
  cases uid with
  | none =>
    simp only [readHistory]
    exact id
  | some u =>
    simp only [readHistory]
    cases hg : mapGet cache u with
    | none =>
      simp only [hg]
      exact id
    | some entry =>
      simp only [hg]
      split
      · exact id
      · intro h
        rw [mapGet_mapDelete_eq] at h
        by_cases hku : k = u
        · rw [if_pos hku] at h
          exact absurd h (by simp)
        · rw [if_neg hku] at h
          exact h

/-- A failing primary attempt leaves the empty candidate reply. -/
theorem primaryStep_fail_empty (env : Env) (st : GState)
    (hp : env.geminiKey = true → primaryFails env st = true) :
    (primaryStep env st).1 = "" := by
  unfold primaryStep
  by_cases hg : env.geminiKey = true
  · rw [if_pos hg]
    have hpf := hp hg
    cases hm : env.primary (selModel env st) with
    | ok t =>
      simp only [primaryFails] at hpf
      rw [hm] at hpf
      simp only [beq_iff_eq] at hpf
      simp [hm, hpf]
    | err => simp [hm]
  · rw [if_neg hg]

/-- With every secondary model failing (or no key), the secondary step keeps
the empty candidate. -/
theorem secondaryStep_allFail (env : Env)
    (hs : env.openrouterKey = true → ∀ m ∈ env.orModels, orFails (env.orResp m) = true) :
    secondaryStep env "" = "" := by
  unfold secondaryStep
  by_cases hk : env.openrouterKey = true
  · rw [if_pos ⟨rfl, hk⟩]
    obtain ⟨e, he⟩ :=
      callOpenRouterGo_allFail_isError env.orResp env.orModels none (hs hk)
    unfold callOpenRouter
    rw [if_pos hk, he]
  · rw [if_neg (fun hand => hk hand.2)]

/-- Under total provider failure the orchestrator call reduces to the
degraded reply paired with the lazily-expired cache and the post-rollover
tracker. -/
theorem generateChatReply_degraded (env : Env) (msg : String) (uid : Option String)
    (st : GState) (hmsg : jsTrimS msg ≠ "")
    (hp : env.geminiKey = true → primaryFails env st = true)
    (hs : env.openrouterKey = true → ∀ m ∈ env.orModels, orFails (env.orResp m) = true) :
    generateChatReply env msg uid st =
      (DEGRADED_REPLY, ⟨(readHistory env uid st.cache).2, (primaryStep env st).2⟩) := by
  have hr1 := primaryStep_fail_empty env st hp
  have hfr : secondaryStep env (primaryStep env st).1 = "" := by
    rw [hr1]
    exact secondaryStep_allFail env hs
  simp only [generateChatReply, hfr]
  rw [if_neg hmsg, if_pos trivial]

/-- C1 (amended): on total provider failure (primary throws or yields empty
text; every secondary model fails or no secondary key), `generateChatReply`
returns the fixed degraded-service string and — being total — throws nothing;
it never adds or alters a conversation-memory entry (at most the caller's
expired entry is lazily deleted); without a primary key the tracker is
untouched, and with one the tracker still undergoes the lazy date rollover
and gains one count exactly when the primary attempt returned empty text
without throwing while the flash tier was selected. -/
theorem generateChatReply_total_failure_frame (env : Env) (msg : String)
    (uid : Option String) (st : GState) (hmsg : jsTrimS msg ≠ "")
    (hp : env.geminiKey = true → primaryFails env st = true)
    (hs : env.openrouterKey = true → ∀ m ∈ env.orModels, orFails (env.orResp m) = true) :
    (generateChatReply env msg uid st).1 = DEGRADED_REPLY
    ∧ (∀ k e, mapGet (generateChatReply env msg uid st).2.cache k = some e →
        mapGet st.cache k = some e)
    ∧ (env.geminiKey = false → (generateChatReply env msg uid st).2.tracker = st.tracker)
    ∧ (env.geminiKey = true →
        (generateChatReply env msg uid st).2.tracker =
          ⟨env.todayStr,
           (rolledTracker env st).flashCount +
             (if primaryEmptyOkB env st = true ∧ selModel env st = FLASH_MODEL
              then 1 else 0)⟩) := by
  have hd := generateChatReply_degraded env msg uid st hmsg hp hs
  rw [hd]
  refine ⟨rfl, ?_, ?_, ?_⟩
  · intro k e
    exact readHistory_frame env uid st.cache k e
  · intro hg
    unfold primaryStep
    rw [if_neg (by simp [hg])]
  · intro hg
    unfold primaryStep
    rw [if_pos hg]
    have hpf := hp hg
    simp only [primaryFails] at hpf
    cases hm : env.primary (selModel env st) with
    | err =>
      have hb : primaryEmptyOkB env st = false := by
        simp only [primaryEmptyOkB]
        rw [hm]
      simp only [hm, hb]
      rw [if_neg (by simp)]
      rw [Nat.add_zero]
      exact rolledTracker_eta env st
    | ok t =>
      rw [hm] at hpf
      simp only [beq_iff_eq] at hpf
      have hb : primaryEmptyOkB env st = true := by
        simp only [primaryEmptyOkB]
        rw [hm]
        simp [hpf]
      simp only [hm, hb]
      by_cases hsel : selModel env st = FLASH_MODEL
      · rw [if_pos hsel, if_pos ⟨trivial, hsel⟩, rolledTracker_date]
      · rw [if_neg hsel, if_neg (fun hand => hsel hand.2)]
        rw [Nat.add_zero]
        exact rolledTracker_eta env st

/-- The concrete environment of the C1 counterexample and witness: primary
key set but the call throws; one secondary model that throws. -/
def c1Env : Env :=
  { geminiKey := true, openrouterKey := true, todayStr := "2026/10/12", now := 0,
    primary := fun _ => .err, orModels := ["m"], orResp := fun _ => .exn "boom" }

/-- The concrete starting state of the C1 counterexample: fresh tracker whose
stored date differs from today. -/
def c1St : GState := { cache := [], tracker := { date := "", flashCount := 0 } }

/-- Counterexample to C1 as stated: with every provider failing the call does
return the fixed degraded string, yet the usage-tracker state is not left
exactly as it was — the lazy date rollover inside the attempt already
rewrote the stored date. -/
theorem generateChatReply_total_failure_mutates_tracker :
    (generateChatReply c1Env "hi" (some "u") c1St).1 = DEGRADED_REPLY
    ∧ (generateChatReply c1Env "hi" (some "u") c1St).2.tracker ≠ c1St.tracker := by
  decide

/-- Witness instantiating the amended C1 at the concrete failing run. -/
theorem generateChatReply_total_failure_frame_witness :
    jsTrimS "hi" ≠ "" ∧ (generateChatReply c1Env "hi" (some "u") c1St).1 = DEGRADED_REPLY :=
  ⟨by decide,
   (generateChatReply_total_failure_frame c1Env "hi" (some "u") c1St (by decide)
      (fun _ => by decide) (fun _ => by decide)).1⟩

/-- Under a non-empty message the final tracker is exactly the primary
step's tracker: the secondary provider and the memory write never touch it. -/
theorem generateChatReply_tracker (env : Env) (msg : String) (uid : Option String)
    (st : GState) (hmsg : jsTrimS msg ≠ "") :
    (generateChatReply env msg uid st).2.tracker = (primaryStep env st).2 := by
  simp only [generateChatReply]
  rw [if_neg hmsg]
  split
  · rfl
  · split <;> rfl

/-- C3 (amended): the flash counter is incremented exactly once per
primary-provider call that completes without throwing while the standard
flash tier is selected (even when the returned text is empty); it is never
incremented when the reduced lite tier was selected, when the primary
throws, or when the reply comes from the secondary provider — the final
tracker is invariant under any change of the secondary configuration and
behaviour (last conjunct), so a secondary-produced reply never touches it. -/
theorem flash_counter_increment_policy (env : Env) (msg : String)
    (uid : Option String) (st : GState) (hmsg : jsTrimS msg ≠ "") :
    (env.geminiKey = false →
      (generateChatReply env msg uid st).2.tracker = st.tracker)
    ∧ (env.geminiKey = true → env.primary (selModel env st) = .err →
        (generateChatReply env msg uid st).2.tracker =
          ⟨env.todayStr, (rolledTracker env st).flashCount⟩)
    ∧ (∀ t, env.geminiKey = true → env.primary (selModel env st) = .ok t →
        (generateChatReply env msg uid st).2.tracker =
          ⟨env.todayStr,
           (rolledTracker env st).flashCount +
             (if selModel env st = FLASH_MODEL then 1 else 0)⟩)
    ∧ (∀ (ok2 : Bool) (oms : List String) (oresp : String → OROutcome),
        (generateChatReply
            { env with openrouterKey := ok2, orModels := oms, orResp := oresp }
            msg uid st).2.tracker =
          (generateChatReply env msg uid st).2.tracker) := by
  have htr := generateChatReply_tracker env msg uid st hmsg
  refine ⟨?_, ?_, ?_, ?_⟩
  · intro hg
    rw [htr]
    unfold primaryStep
    rw [if_neg (by simp [hg])]
  · intro hg hm
    rw [htr]
    unfold primaryStep
    rw [if_pos hg]
    simp only [hm]
    exact rolledTracker_eta env st
  · intro t hg hm
    rw [htr]
    unfold primaryStep
    rw [if_pos hg]
    simp only [hm]
    by_cases hsel : selModel env st = FLASH_MODEL
    · rw [if_pos hsel, if_pos hsel, rolledTracker_date]
    · rw [if_neg hsel, if_neg hsel]
      rw [Nat.add_zero]
      exact rolledTracker_eta env st
  · intro ok2 oms oresp
    rw [htr,
      generateChatReply_tracker
        { env with openrouterKey := ok2, orModels := oms, orResp := oresp }
        msg uid st hmsg]
    rfl

/-- The concrete environment of the C3 counterexample and witness: primary
succeeds with a fixed text, no secondary key. -/
def c3Env : Env :=
  { geminiKey := true, openrouterKey := false, todayStr := "2026/10/12", now := 0,
    primary := fun _ => .ok "hi there", orModels := [], orResp := fun _ => .exn "x" }

/-- C3 counterexample state: today's count already at the threshold, so the
reduced tier is selected. -/
def c3St : GState := { cache := [], tracker := { date := "2026/10/12", flashCount := 240 } }

/-- Counterexample to C3 as stated: with the reduced tier selected (count at
the threshold) a successful primary call produces the reply yet the counter
is not incremented — it is not incremented on every successful primary call. -/
theorem lite_success_does_not_increment :
    (generateChatReply c3Env "哈囉" (some "u") c3St).1 = "hi there"
    ∧ selModel c3Env c3St = FLASH_LITE_MODEL
    ∧ (generateChatReply c3Env "哈囉" (some "u") c3St).2.tracker.flashCount =
        c3St.tracker.flashCount := by
  decide

/-- C3 witness state: below the threshold, so the flash tier is selected. -/
def c3wSt : GState := { cache := [], tracker := { date := "2026/10/12", flashCount := 0 } }

/-- Witness instantiating the amended C3: a successful flash-tier primary
call increments the counter exactly once. -/
theorem flash_counter_increment_policy_witness :
    (generateChatReply c3Env "哈囉" (some "u") c3wSt).2.tracker =
      ⟨c3Env.todayStr,
       (rolledTracker c3Env c3wSt).flashCount +
         (if selModel c3Env c3wSt = FLASH_MODEL then 1 else 0)⟩ :=
  (flash_counter_increment_policy c3Env "哈囉" (some "u") c3wSt (by decide)).2.2.1
    "hi there" rfl rfl

/-! ## Claim C7 — parsed-group invariants -/

/-- The distance captured by the alternation is one of its two literals. -/
theorem matchDistanceAt_cases (s : List Char) (p : String × List Char)
    (h : matchDistanceAt s = some p) : p.1 = "1200" ∨ p.1 = "800" := by
  unfold matchDistanceAt at h
  cases h1 : dropLit "1200".data s with
  | some r =>
    rw [h1] at h
    have := Option.some.inj h
    left
    rw [← this]
  | none =>
    rw [h1] at h
    cases h2 : dropLit "800".data s with
    | some r =>
      rw [h2] at h
      have := Option.some.inj h
      right
      rw [← this]
    | none =>
      rw [h2] at h
      exact absurd h (by simp)

/-- Any interval match carries distance `1200` or `800`. -/
theorem matchIntervalAt_distance (s : List Char) (iv : IntervalMatch)
    (h : matchIntervalAt s = some iv) : iv.distance = "1200" ∨ iv.distance = "800" := by
  unfold matchIntervalAt at h
  cases hd : matchDistanceAt s with
  | none =>
    rw [hd] at h
    exact absurd h (by simp)
  | some p =>
    rw [hd] at h
    simp only [Option.some_bind] at h
    cases ht : matchIntervalTail p.2 with
    | none =>
      rw [ht] at h
      exact absurd h (by simp)
    | some t =>
      rw [ht] at h
      have := Option.some.inj h
      rw [← this]
      exact matchDistanceAt_cases s p hd

/-- A property of every direct match is a property of every scanned match. -/
theorem scanFirst_prop {α : Type} (P : α → Prop) (f : List Char → Option α)
    (hf : ∀ s r, f s = some r → P r) :
    ∀ s r, scanFirst f s = some r → P r := by
  intro s
  induction s with
  | nil =>
    intro r hr
    exact hf [] r hr
  | cons c rest ih =>
    intro r hr
    unfold scanFirst at hr
    cases hc : f (c :: rest) with
    | some x =>
      rw [hc] at hr
      exact hf _ r (hc.trans (congrArg some (Option.some.inj hr)))
    | none =>
      rw [hc] at hr
      exact ih r hr

/-- Every group the builder emits has as many lap times as paces, and its
laps-per-rep is 6 exactly for distance 1200 and 4 exactly for distance 800. -/
theorem buildGroup_invariant (block : List Char) (h : GroupHeader) (e : Nat)
    (g : ScheduleGroup) (hb : buildGroup block h e = some g) :
    g.lapTimes.length = g.paces.length ∧
      (g.distance = "1200" ∧ g.lapsPerRep = 6 ∨ g.distance = "800" ∧ g.lapsPerRep = 4) := by
  unfold buildGroup at hb
  cases hiv : scanFirst matchIntervalAt ((block.take e).drop h.index) with
  | none =>
    simp only [hiv] at hb
    exact absurd hb (by simp)
  | some iv =>
    simp only [hiv] at hb
    have hg := Option.some.inj hb
    have hdist : iv.distance = "1200" ∨ iv.distance = "800" :=
      scanFirst_prop (fun r => r.distance = "1200" ∨ r.distance = "800")
        matchIntervalAt matchIntervalAt_distance _ iv hiv
    constructor
    · rw [← hg]
      simp [List.length_map]
    · rcases hdist with h12 | h8
      · left
        rw [← hg]
        simp [h12]
      · right
        rw [← hg]
        constructor
        · simp [h8]
        · simp only [h8]
          rw [if_neg (by decide)]

/-- C7: every group of every non-null `parseSchedule` result has exactly as
many lap times as paces, and laps-per-rep 6 with distance `1200` or 4 with
distance `800`. -/
theorem parseSchedule_group_invariants (text : String) (doc : ScheduleDoc)
    (hdoc : parseSchedule text = some doc) :
    ∀ g ∈ doc.groups, g.lapTimes.length = g.paces.length ∧
      (g.distance = "1200" ∧ g.lapsPerRep = 6 ∨
       g.distance = "800" ∧ g.lapsPerRep = 4) := by
  unfold parseSchedule at hdoc
  cases hfb : fullMarathonBlockOf text.data with
  | none =>
    simp only [hfb] at hdoc
    exact absurd hdoc (by simp)
  | some block =>
    simp only [hfb] at hdoc
    by_cases hge : (buildGroups block (collectGroupHeaders block)).isEmpty = true
    · rw [if_pos hge] at hdoc
      exact absurd hdoc (by simp)
    · rw [if_neg hge] at hdoc
      have hd := Option.some.inj hdoc
      intro g hg
      have hmem : g ∈ buildGroups block (collectGroupHeaders block) := by
        have := congrArg ScheduleDoc.groups hd
        simp only at this
        rw [← this] at hg
        exact hg
      obtain ⟨pe, _, hbg⟩ := List.mem_filterMap.mp hmem
      exact buildGroup_invariant block pe.1 pe.2 g hbg

/-- The concrete pasted schedule of the C7 witness. -/
def schedText : String :=
  "Week9  02/23-03/01\n全馬組\nA SUB 330\n1200 x 4 @ 04:00/km R: 60\n半馬組後面"

/-- The document `parseSchedule` produces for `schedText`. -/
def schedDoc : ScheduleDoc :=
  { weekLabel := "Week9", periodStr := some "02/23-03/01",
    groups := [{ name := "A", target := "SUB 330 ", distance := "1200",
                 reps := "4", paces := [some "04:00"], lapTimes := [48],
                 rest := "60", lapsPerRep := 6 }] }

/-- Witness instantiating C7 on the concrete parsed schedule. -/
theorem parseSchedule_group_invariants_witness :
    parseSchedule schedText = some schedDoc ∧
      (∃ g, g ∈ schedDoc.groups ∧ g.lapTimes.length = g.paces.length ∧
        (g.distance = "1200" ∧ g.lapsPerRep = 6 ∨
         g.distance = "800" ∧ g.lapsPerRep = 4)) :=
  ⟨by decide,
   ⟨schedDoc.groups[0],
    by decide,
    parseSchedule_group_invariants schedText schedDoc (by decide)
      schedDoc.groups[0] (by decide)⟩⟩

/-- A small concrete record for the C9 witness. -/
def wRec : Restaurant :=
  { name := some "店", rating := some "4.5", price := some "\x24", item := some "麵",
    mapUrl := some "https://maps.app/x" }

/-- Witness instantiating C9 on an eleven-record parse result. -/
theorem carousel_first_ten_witness :
    buildRestaurantCarousel (List.replicate 10 wRec ++ [wRec]) =
      (List.replicate 10 wRec).map mkBubble :=
  (carousel_first_ten (List.replicate 10 wRec) [wRec] "hello" (by decide)).1
